import Mathlib

/-!
# Verification of the `bscan` scan-orchestration engine

A shallow embedding, in Lean 4, of the parts of the `bscan` source tree that
the specification's claims are about:

* `bscan/scans.py` — `join_services`, `scan_target`'s UDP step, `proc_spawn`;
* `bscan/models.py` — `ParsedService`, `DetectedService`, `_fill_template`,
  `build_scans`, `build_recommendations`;
* `bscan/runtime.py` — the keyed runtime store (`db`), `get_db_value`,
  subprocess-set tracking, `status_update_poller`;
* `bscan/config.py` — `init_config`;
* `bscan/cli.py` — `main`'s configuration-error path and per-target admission.

Python strings are modelled as `List Char` (`Str`), Python sets as `Finset`,
Python (insertion-ordered) dictionaries as association lists in configuration
order.  Python exceptions are modelled with `Except`.
-/

namespace Bscan

/-- Python strings are modelled as lists of characters. -/
abbrev Str := List Char

/-- Literal shorthand: the character list of a Lean string literal. -/
def str (s : String) : Str := s.data

/-! ## Python string primitives

`models.py` relies on `str.replace` and the `in` substring test.  Both are
modelled directly on `List Char`; `pyReplace` performs the left-to-right,
non-overlapping replacement that Python's `str.replace` performs. -/

/-- Python's `pat in s` substring test: `pat` occurs contiguously in `s`.
`List.IsInfix` (`<:+:`) is decidable, which is what the `if` statements of
`_fill_template` branch on. -/
def pyContains (s pat : Str) : Prop := pat <:+: s

instance (s pat : Str) : Decidable (pyContains s pat) :=
  inferInstanceAs (Decidable (pat <:+: s))

/-- Scanner for Python's `s.replace(pat, rep)`: at each position, if `pat`
(non-empty) is a prefix of the remainder, emit `rep` and skip past the
occurrence, otherwise keep the character.  The scan consumes at least one
character per step, so `fuel = s.length` always suffices; the fuel argument
only makes the recursion structural. -/
def pyReplaceAux (pat rep : Str) : Nat → Str → Str
  | 0, s => s
  | _ + 1, [] => []
  | fuel + 1, c :: rest =>
    if pat ≠ [] ∧ pat.isPrefixOf (c :: rest) then
      rep ++ pyReplaceAux pat rep fuel (rest.drop (pat.length - 1))
    else
      c :: pyReplaceAux pat rep fuel rest

/-- Python's `s.replace(pat, rep)`: left-to-right, non-overlapping
replacement of every occurrence of `pat` by `rep`. -/
def pyReplace (pat rep s : Str) : Str := pyReplaceAux pat rep s.length s

lemma pyReplaceAux_fuel (pat rep : Str) :
    ∀ f₁ f₂ s, s.length ≤ f₁ → s.length ≤ f₂ →
      pyReplaceAux pat rep f₁ s = pyReplaceAux pat rep f₂ s := by
  intro f₁
  induction f₁ with
  | zero =>
    intro f₂ s hs₁ _
    have : s = [] := List.eq_nil_of_length_eq_zero (Nat.le_zero.mp hs₁)
    subst this
    cases f₂ <;> rfl
  | succ f₁ ih =>
    intro f₂ s hs₁ hs₂
    match s, f₂ with
    | [], g => cases g <;> rfl
    | c :: rest, g + 1 =>
      simp only [List.length_cons, Nat.add_le_add_iff_right] at hs₁ hs₂
      simp only [pyReplaceAux]
      have hd : (rest.drop (pat.length - 1)).length ≤ rest.length := by
        rw [List.length_drop]
        omega
      by_cases h : pat ≠ [] ∧ pat.isPrefixOf (c :: rest)
      · rw [if_pos h, if_pos h,
          ih g _ (le_trans hd hs₁) (le_trans hd hs₂)]
      · rw [if_neg h, if_neg h, ih g rest hs₁ hs₂]

lemma pyReplaceAux_eq_pyReplace (pat rep : Str) {f : Nat} {s : Str}
    (hf : s.length ≤ f) : pyReplaceAux pat rep f s = pyReplace pat rep s :=
  pyReplaceAux_fuel pat rep f s.length s hf le_rfl

/-! ## Data model (`bscan/models.py`) -/

/-- `ParsedService = namedtuple('ParsedService', ['name', 'port'])` —
a service parsed from port-scanner output; equality by `(name, port)`. -/
structure ParsedService where
  name : Str
  port : Nat
deriving DecidableEq, Repr

/-- One protocol's entry of the service-taxonomy configuration
(`db['services']`, one TOML table per protocol): the protocol key, its
`nmap-service-names` list, its `scans` mapping (scan-id → command template,
in declaration order) and its `recommendations` templates. -/
structure ServiceRule where
  protocol : Str
  nmapServiceNames : List Str
  scans : List (Str × Str)
  recommendations : List Str
deriving DecidableEq, Repr

/-- `DetectedService` (`models.py`): a service detected in a scan —
protocol name, target, port tuple, scan templates and recommendations. -/
structure DetectedService where
  name : Str
  target : Str
  ports : List Nat
  scans : List (Str × Str)
  recommendations : List Str
deriving DecidableEq, Repr

/-! ## The taxonomy joiner (`bscan/scans.py`, `join_services`) -/

/-- The list comprehension of `scans.py` line 219:
`[s for s in services if s.name in config['nmap-service-names']]`,
as the sub-*set* of `services` it denotes (Python set iteration order is
unspecified; every use of the match list below is order-independent). -/
def matchedServices (services : Finset ParsedService) (cfg : ServiceRule) :
    Finset ParsedService :=
  services.filter (fun s => s.name ∈ cfg.nmapServiceNames)

/-- `tuple(sorted(s.port for s in matched))` (`scans.py` line 225): the ports
of the matched services, with multiplicity, sorted ascending.  Python's
`sorted` is modelled by `List.insertionSort (· ≤ ·)` over any enumeration of
the set; the result is independent of the enumeration order because a sorted
rearrangement of a list is unique. -/
def sortedPorts (mtch : Finset ParsedService) : List Nat :=
  Quotient.liftOn mtch.val
    (fun l => (l.map (·.port)).insertionSort (· ≤ ·))
    (fun _ _ h =>
      List.eq_of_perm_of_sorted
        (((List.perm_insertionSort _ _).trans (h.map _)).trans
          (List.perm_insertionSort _ _).symm)
        (List.sorted_insertionSort _ _) (List.sorted_insertionSort _ _))

lemma sortedPorts_sorted (mtch : Finset ParsedService) :
    (sortedPorts mtch).Sorted (· ≤ ·) := by
  rcases mtch with ⟨m, hm⟩
  induction m using Quotient.inductionOn with
  | h l => exact List.sorted_insertionSort _ _

lemma sortedPorts_length (mtch : Finset ParsedService) :
    (sortedPorts mtch).length = mtch.card := by
  rcases mtch with ⟨m, hm⟩
  induction m using Quotient.inductionOn with
  | h l =>
    show ((l.map (·.port)).insertionSort (· ≤ ·)).length = _
    rw [(List.perm_insertionSort _ _).length_eq, List.length_map]
    rfl

/-- The `DetectedService(...)` constructed at `scans.py` lines 222-227. -/
def detectedOf (target : Str) (cfg : ServiceRule)
    (mtch : Finset ParsedService) : DetectedService :=
  { name := cfg.protocol
    target := target
    ports := sortedPorts mtch
    scans := cfg.scans
    recommendations := cfg.recommendations }

/-- `join_services(target, services)` (`scans.py` lines 205-231).
`defined_services = get_db_value('services')` is the rule table in
configuration order; `unmatched_services = services.copy()` starts the
residual; for each rule, the matched services are computed **from `services`**
(the original input) and, when non-empty, a `DetectedService` is appended and
the matched services are subtracted from the residual. -/
def join_services (rules : List ServiceRule) (target : Str)
    (services : Finset ParsedService) :
    Finset ParsedService × List DetectedService :=
  rules.foldl
    (fun acc cfg =>
      let mtch := matchedServices services cfg
      if mtch = ∅ then acc
      else (acc.1 \ mtch, acc.2 ++ [detectedOf target cfg mtch]))
    (services, [])

/-- The union of all rules' matched-service sets against a fixed input `S`. -/
def matchedUnion (rules : List ServiceRule) (services : Finset ParsedService) :
    Finset ParsedService :=
  match rules with
  | [] => ∅
  | r :: rs => matchedServices services r ∪ matchedUnion rs services

lemma mem_matchedServices {S : Finset ParsedService} {r : ServiceRule}
    {s : ParsedService} :
    s ∈ matchedServices S r ↔ s ∈ S ∧ s.name ∈ r.nmapServiceNames := by
  simp [matchedServices]

lemma mem_matchedUnion {rules : List ServiceRule} {S : Finset ParsedService}
    {s : ParsedService} :
    s ∈ matchedUnion rules S ↔
      s ∈ S ∧ ∃ r ∈ rules, s.name ∈ r.nmapServiceNames := by
  induction rules with
  | nil => simp [matchedUnion]
  | cons r rs ih =>
    simp only [matchedUnion, Finset.mem_union, ih, mem_matchedServices,
      List.mem_cons]
    constructor
    · rintro (⟨hS, hn⟩ | ⟨hS, r', hr', hn⟩)
      · exact ⟨hS, r, Or.inl rfl, hn⟩
      · exact ⟨hS, r', Or.inr hr', hn⟩
    · rintro ⟨hS, r', (rfl | hr'), hn⟩
      · exact Or.inl ⟨hS, hn⟩
      · exact Or.inr ⟨hS, r', hr', hn⟩

/-- The loop of `join_services`, exposed for induction. -/
def joinStep (services : Finset ParsedService) (target : Str)
    (acc : Finset ParsedService × List DetectedService) (cfg : ServiceRule) :
    Finset ParsedService × List DetectedService :=
  let mtch := matchedServices services cfg
  if mtch = ∅ then acc
  else (acc.1 \ mtch, acc.2 ++ [detectedOf target cfg mtch])

lemma join_services_eq_foldl (rules : List ServiceRule) (target : Str)
    (services : Finset ParsedService) :
    join_services rules target services =
      rules.foldl (joinStep services target) (services, []) := rfl

lemma foldl_joinStep_fst (rules : List ServiceRule) (target : Str)
    (services : Finset ParsedService)
    (acc : Finset ParsedService × List DetectedService) :
    (rules.foldl (joinStep services target) acc).1 =
      acc.1 \ matchedUnion rules services := by
  induction rules generalizing acc with
  | nil => simp [matchedUnion]
  | cons r rs ih =>
    rw [List.foldl_cons, ih]
    by_cases h : matchedServices services r = ∅
    · simp [joinStep, h, matchedUnion]
    · simp only [joinStep, if_neg h, matchedUnion]
      ext s
      simp only [Finset.mem_sdiff, Finset.mem_union]
      tauto

lemma foldl_joinStep_snd (rules : List ServiceRule) (target : Str)
    (services : Finset ParsedService)
    (acc : Finset ParsedService × List DetectedService) :
    (rules.foldl (joinStep services target) acc).2 =
      acc.2 ++ rules.filterMap (fun r =>
        let mtch := matchedServices services r
        if mtch = ∅ then none else some (detectedOf target r mtch)) := by
  induction rules generalizing acc with
  | nil => simp
  | cons r rs ih =>
    rw [List.foldl_cons, ih]
    by_cases h : matchedServices services r = ∅
    · simp [joinStep, h]
    · simp [joinStep, h]

/-- The unmatched residual is exactly the input minus every rule's matches. -/
lemma join_services_fst (rules : List ServiceRule) (target : Str)
    (services : Finset ParsedService) :
    (join_services rules target services).1 =
      services \ matchedUnion rules services :=
  foldl_joinStep_fst rules target services (services, [])

/-- The detected-service list is, in configuration order, one entry per rule
with a non-empty match. -/
lemma join_services_snd (rules : List ServiceRule) (target : Str)
    (services : Finset ParsedService) :
    (join_services rules target services).2 =
      rules.filterMap (fun r =>
        let mtch := matchedServices services r
        if mtch = ∅ then none else some (detectedOf target r mtch)) := by
  simpa using foldl_joinStep_snd rules target services (services, [])

lemma matchedServices_residual_empty (rules : List ServiceRule) (target : Str)
    (services : Finset ParsedService) {r : ServiceRule} (hr : r ∈ rules) :
    matchedServices (join_services rules target services).1 r = ∅ := by
  rw [join_services_fst]
  rw [Finset.eq_empty_iff_forall_not_mem]
  intro s hs
  rw [mem_matchedServices, Finset.mem_sdiff] at hs
  exact hs.1.2 (mem_matchedUnion.mpr ⟨hs.1.1, r, hr, hs.2⟩)

lemma foldl_joinStep_of_all_empty (rules : List ServiceRule) (target : Str)
    (services : Finset ParsedService)
    (h : ∀ r ∈ rules, matchedServices services r = ∅)
    (acc : Finset ParsedService × List DetectedService) :
    rules.foldl (joinStep services target) acc = acc := by
  induction rules generalizing acc with
  | nil => rfl
  | cons r rs ih =>
    rw [List.foldl_cons]
    have hr : matchedServices services r = ∅ := h r (List.mem_cons_self r rs)
    rw [joinStep, if_pos hr]
    exact ih (fun r' hr' => h r' (List.mem_cons_of_mem r hr')) acc

/-- **C6** Joining is idempotent on its residual: re-joining the unmatched
residual of a first `join_services` pass (with the same configured rule
table) returns that residual unchanged, with no detected services. -/
theorem join_services_idempotent_on_residual (rules : List ServiceRule)
    (target target' : Str) (services : Finset ParsedService) :
    join_services rules target' (join_services rules target services).1 =
      ((join_services rules target services).1, []) := by
  rw [join_services_eq_foldl]
  exact foldl_joinStep_of_all_empty rules target'
    (join_services rules target services).1
    (fun r hr => matchedServices_residual_empty rules target services hr)
    ((join_services rules target services).1, [])

/-- **C3 (counterexample)** Two differently-named services on the same port
(`("a", 80)` and `("b", 80)`) both matched by one rule produce the port list
`[80, 80]`, which is *not* strictly increasing: `sorted(s.port for s in
matches)` in `scans.py` line 225 does not deduplicate ports. -/
theorem join_services_ports_not_strictly_increasing :
    (join_services
        [⟨str "httpx", [str "a", str "b"], [], []⟩] (str "t")
        {⟨str "a", 80⟩, ⟨str "b", 80⟩}).2.map (fun d => d.ports) = [[80, 80]] ∧
      ¬ List.Sorted (· < ·) [80, 80] := by
  constructor
  · decide
  · simp [List.sorted_cons]

/-- **C3 (amended)** Every `DetectedService` produced by `join_services` has
a non-empty port list sorted in non-decreasing order; the list may contain
duplicates when differently-named services share a port. -/
theorem join_services_ports_sorted_nonempty (rules : List ServiceRule)
    (target : Str) (services : Finset ParsedService)
    (d : DetectedService) (hd : d ∈ (join_services rules target services).2) :
    d.ports ≠ [] ∧ d.ports.Sorted (· ≤ ·) := by
  rw [join_services_snd, List.mem_filterMap] at hd
  obtain ⟨r, _, hr⟩ := hd
  simp only at hr
  split at hr
  · exact absurd hr (by simp)
  · rename_i hne
    obtain rfl : detectedOf target r (matchedServices services r) = d :=
      Option.some_injective _ hr
    refine ⟨?_, sortedPorts_sorted _⟩
    have hcard : 0 < (matchedServices services r).card :=
      Finset.card_pos.mpr (Finset.nonempty_iff_ne_empty.mpr hne)
    intro hnil
    have hlen : (sortedPorts (matchedServices services r)).length = 0 := by
      simpa [detectedOf] using congrArg List.length hnil
    rw [sortedPorts_length] at hlen
    omega

/-- **C3 (witness for the amended theorem)** The amended theorem applied to
the concrete duplicate-port input: the produced port list `[80, 80]` is
non-empty and sorted. -/
theorem join_services_ports_sorted_nonempty_witness :
    (DetectedService.mk (str "httpx") (str "t") [80, 80] [] []).ports ≠ [] ∧
      (DetectedService.mk (str "httpx") (str "t") [80, 80] [] []).ports.Sorted
        (· ≤ ·) :=
  join_services_ports_sorted_nonempty
    [⟨str "httpx", [str "a", str "b"], [], []⟩] (str "t")
    {⟨str "a", 80⟩, ⟨str "b", 80⟩}
    (DetectedService.mk (str "httpx") (str "t") [80, 80] [] [])
    (by decide)

lemma matchedUnion_subset (rules : List ServiceRule)
    (services : Finset ParsedService) :
    matchedUnion rules services ⊆ services :=
  fun _ hs => (mem_matchedUnion.mp hs).1

/-- **C2 (counterexample)** With two rules whose `nmap-service-names` both
contain `"x"`, the single service `("x", 1)` is consumed by *both* rules —
`join_services` produces two `DetectedService`s each carrying port 1, and the
two matched-service sets intersect — because `scans.py` line 219 computes the
matches from the original `services` set, not from the shrinking residual. -/
theorem join_services_overlapping_rules_not_disjoint :
    (join_services
        [⟨str "pa", [str "x"], [], []⟩, ⟨str "pb", [str "x"], [], []⟩]
        (str "t") {⟨str "x", 1⟩}).2.map (fun d => (d.name, d.ports)) =
        [(str "pa", [1]), (str "pb", [1])] ∧
      matchedServices {⟨str "x", 1⟩} ⟨str "pa", [str "x"], [], []⟩ ∩
          matchedServices {⟨str "x", 1⟩} ⟨str "pb", [str "x"], [], []⟩ =
        {⟨str "x", 1⟩} := by
  constructor
  · decide
  · decide

/-- **C2 (amended)** `join_services` covers its input exactly: the unmatched
residual together with the union of the rules' matched-service sets is the
input set, and the residual is disjoint from that union; the detected-service
list holds, in configuration order, one entry per rule with a non-empty match.
When the rules' `nmap-service-names` lists are pairwise disjoint (as a
well-formed taxonomy has them), the matched-service sets are also pairwise
disjoint; a service whose name appears in several rules' lists is consumed by
every one of those rules, not only the first. -/
theorem join_services_partitions (rules : List ServiceRule) (target : Str)
    (services : Finset ParsedService) :
    ((join_services rules target services).1 ∪ matchedUnion rules services =
        services ∧
      Disjoint (join_services rules target services).1
        (matchedUnion rules services) ∧
      (join_services rules target services).2 = rules.filterMap (fun r =>
        let mtch := matchedServices services r
        if mtch = ∅ then none else some (detectedOf target r mtch))) ∧
    (rules.Pairwise (fun r₁ r₂ => ∀ n,
        n ∈ r₁.nmapServiceNames → n ∈ r₂.nmapServiceNames → False) →
      rules.Pairwise (fun r₁ r₂ =>
        Disjoint (matchedServices services r₁)
          (matchedServices services r₂))) := by
  refine ⟨⟨?_, ?_, join_services_snd rules target services⟩, fun hdisj => ?_⟩
  · rw [join_services_fst]
    exact Finset.sdiff_union_of_subset (matchedUnion_subset rules services)
  · rw [join_services_fst]
    exact Finset.sdiff_disjoint
  · refine hdisj.imp (fun h => ?_)
    rw [Finset.disjoint_left]
    intro s hs1 hs2
    exact h s.name (mem_matchedServices.mp hs1).2 (mem_matchedServices.mp hs2).2

/-- **C2 (witness for the amended theorem)** The amended theorem applied to a
two-rule taxonomy with disjoint name lists and one service matching the
second rule. -/
theorem join_services_partitions_witness :
    ((join_services
          [⟨str "pa", [str "u"], [], []⟩, ⟨str "pb", [str "x"], [], []⟩]
          (str "t") {⟨str "x", 1⟩}).1 ∪
        matchedUnion [⟨str "pa", [str "u"], [], []⟩,
          ⟨str "pb", [str "x"], [], []⟩] {⟨str "x", 1⟩} = {⟨str "x", 1⟩} ∧
      Disjoint
        (join_services [⟨str "pa", [str "u"], [], []⟩,
          ⟨str "pb", [str "x"], [], []⟩] (str "t") {⟨str "x", 1⟩}).1
        (matchedUnion [⟨str "pa", [str "u"], [], []⟩,
          ⟨str "pb", [str "x"], [], []⟩] {⟨str "x", 1⟩}) ∧
      (join_services [⟨str "pa", [str "u"], [], []⟩,
          ⟨str "pb", [str "x"], [], []⟩] (str "t") {⟨str "x", 1⟩}).2 =
        [⟨str "pa", [str "u"], [], []⟩,
          ⟨str "pb", [str "x"], [], []⟩].filterMap (fun r =>
            let mtch := matchedServices {⟨str "x", 1⟩} r
            if mtch = ∅ then none
            else some (detectedOf (str "t") r mtch))) ∧
      List.Pairwise (fun r₁ r₂ =>
          Disjoint (matchedServices {⟨str "x", 1⟩} r₁)
            (matchedServices {⟨str "x", 1⟩} r₂))
        [⟨str "pa", [str "u"], [], []⟩, ⟨str "pb", [str "x"], [], []⟩] :=
  ⟨(join_services_partitions
      [⟨str "pa", [str "u"], [], []⟩, ⟨str "pb", [str "x"], [], []⟩]
      (str "t") {⟨str "x", 1⟩}).1,
    (join_services_partitions
      [⟨str "pa", [str "u"], [], []⟩, ⟨str "pb", [str "x"], [], []⟩]
      (str "t") {⟨str "x", 1⟩}).2 (by decide)⟩

/-! ## Object-identity model of `join_services` (frame property)

Python sets are heap objects.  To settle the frame claim about
`join_services` — the input set object is never mutated, and the returned
residual is a distinct object — the function is re-traced over an explicit
heap mapping object identities to set values.  The pure `join_services`
above is the value-level shadow of this heap version. -/

/-- A heap of Python `set` objects: object id → current value. -/
abbrev Heap := List (Nat × Finset ParsedService)

/-- Dereference an object id. -/
def heapGet (h : Heap) (i : Nat) : Option (Finset ParsedService) :=
  match h with
  | [] => none
  | (j, v) :: rest => if j = i then some v else heapGet rest i

/-- In-place mutation of the object with id `i` (Python's `-=` on a set). -/
def heapSet (h : Heap) (i : Nat) (v : Finset ParsedService) : Heap :=
  match h with
  | [] => []
  | (j, w) :: rest => (j, if j = i then v else w) :: heapSet rest i v

/-- One loop iteration of `join_services` (`scans.py` lines 218-229) at heap
level: the `-=` of line 229 mutates only the residual object `freshId`. -/
def heapJoinStep (services : Finset ParsedService) (target : Str)
    (freshId : Nat) (acc : Heap × List DetectedService) (cfg : ServiceRule) :
    Heap × List DetectedService :=
  let mtch := matchedServices services cfg
  if mtch = ∅ then acc
  else
    (heapSet acc.1 freshId ((heapGet acc.1 freshId).getD ∅ \ mtch),
     acc.2 ++ [detectedOf target cfg mtch])

/-- `join_services` at heap level: line 216's `services.copy()` allocates the
new object `freshId`, the loop mutates only that object, and the residual
returned is (the id of) that copy. -/
def join_services_heap (rules : List ServiceRule) (target : Str)
    (h : Heap) (servicesId freshId : Nat) :
    Heap × Nat × List DetectedService :=
  let services := (heapGet h servicesId).getD ∅
  let h₁ : Heap := (freshId, services) :: h
  let res := rules.foldl (heapJoinStep services target freshId) (h₁, [])
  (res.1, freshId, res.2)

lemma heapGet_heapSet_ne (h : Heap) {i j : Nat} (hne : j ≠ i)
    (v : Finset ParsedService) : heapGet (heapSet h i v) j = heapGet h j := by
  induction h with
  | nil => rfl
  | cons p rest ih =>
    rcases p with ⟨k, w⟩
    by_cases hkj : k = j
    · subst hkj
      simp [heapSet, heapGet, hne]
    · simpa [heapSet, heapGet, hkj] using ih

lemma heapGet_heapSet_self (h : Heap) (i : Nat) (v : Finset ParsedService) :
    heapGet (heapSet h i v) i = (heapGet h i).map (fun _ => v) := by
  induction h with
  | nil => rfl
  | cons p rest ih =>
    rcases p with ⟨k, w⟩
    by_cases hk : k = i
    · subst hk
      simp [heapSet, heapGet]
    · simpa [heapSet, heapGet, hk] using ih

lemma heapJoinStep_foldl_frame (rules : List ServiceRule)
    (services : Finset ParsedService) (target : Str) (freshId : Nat)
    (acc : Heap × List DetectedService) {j : Nat} (hj : j ≠ freshId) :
    heapGet (rules.foldl (heapJoinStep services target freshId) acc).1 j =
      heapGet acc.1 j := by
  induction rules generalizing acc with
  | nil => rfl
  | cons r rs ih =>
    rw [List.foldl_cons, ih]
    by_cases hm : matchedServices services r = ∅
    · simp [heapJoinStep, hm]
    · simp only [heapJoinStep, if_neg hm]
      exact heapGet_heapSet_ne acc.1 hj _

lemma heapJoinStep_foldl_tracks (rules : List ServiceRule)
    (services : Finset ParsedService) (target : Str) (freshId : Nat)
    (acc : Heap × List DetectedService) (U : Finset ParsedService)
    (hU : heapGet acc.1 freshId = some U) :
    heapGet (rules.foldl (heapJoinStep services target freshId) acc).1
        freshId =
      some (rules.foldl (joinStep services target) (U, acc.2)).1 ∧
    (rules.foldl (heapJoinStep services target freshId) acc).2 =
      (rules.foldl (joinStep services target) (U, acc.2)).2 := by
  induction rules generalizing acc U with
  | nil => exact ⟨hU, rfl⟩
  | cons r rs ih =>
    rw [List.foldl_cons, List.foldl_cons]
    by_cases hm : matchedServices services r = ∅
    · simpa [heapJoinStep, joinStep, hm] using ih acc U hU
    · have h1 :
        heapGet (heapJoinStep services target freshId acc r).1 freshId =
          some (U \ matchedServices services r) := by
        simp [heapJoinStep, if_neg hm, heapGet_heapSet_self, hU]
      have h2 := ih (heapJoinStep services target freshId acc r)
        (U \ matchedServices services r) h1
      simpa [heapJoinStep, joinStep, if_neg hm] using h2

/-- **C10** `join_services` never mutates its input: at heap level, the set
object passed in holds exactly the same elements after the call, the returned
unmatched residual is a distinct (freshly copied) object, and that copy holds
the value-level residual while the detected-service list is the value-level
one. -/
theorem join_services_heap_frame (rules : List ServiceRule) (target : Str)
    (h : Heap) (servicesId freshId : Nat) (S : Finset ParsedService)
    (hin : heapGet h servicesId = some S)
    (hfresh : heapGet h freshId = none) :
    heapGet (join_services_heap rules target h servicesId freshId).1
        servicesId = some S ∧
      (join_services_heap rules target h servicesId freshId).2.1 ≠
        servicesId ∧
      heapGet (join_services_heap rules target h servicesId freshId).1
          (join_services_heap rules target h servicesId freshId).2.1 =
        some (join_services rules target S).1 ∧
      (join_services_heap rules target h servicesId freshId).2.2 =
        (join_services rules target S).2 := by
  have hne : freshId ≠ servicesId := by
    intro he
    rw [he, hin] at hfresh
    exact Option.noConfusion hfresh
  have hsvc : (heapGet h servicesId).getD ∅ = S := by rw [hin]; rfl
  have htrack := heapJoinStep_foldl_tracks rules S target freshId
    ((freshId, S) :: h, []) S (by simp [heapGet])
  have hframe := heapJoinStep_foldl_frame rules S target freshId
    ((freshId, S) :: h, []) (Ne.symm hne)
  refine ⟨?_, show freshId ≠ servicesId from hne, ?_, ?_⟩
  · show heapGet (rules.foldl (heapJoinStep ((heapGet h servicesId).getD ∅)
      target freshId) (((freshId, (heapGet h servicesId).getD ∅)) :: h,
      [])).1 servicesId = some S
    rw [hsvc, hframe]
    simpa [heapGet, hne] using hin
  · show heapGet (rules.foldl (heapJoinStep ((heapGet h servicesId).getD ∅)
      target freshId) (((freshId, (heapGet h servicesId).getD ∅)) :: h,
      [])).1 freshId = _
    rw [hsvc, htrack.1]
    rfl
  · show (rules.foldl (heapJoinStep ((heapGet h servicesId).getD ∅)
      target freshId) (((freshId, (heapGet h servicesId).getD ∅)) :: h,
      [])).2 = _
    rw [hsvc, htrack.2]
    rfl

/-- **C10 (witness)** The frame theorem applied to a one-rule taxonomy, a
heap holding the input set `{("x", 1)}` at object id 0, and the fresh copy at
object id 1. -/
theorem join_services_heap_frame_witness :
    heapGet (join_services_heap [⟨str "p", [str "x"], [], []⟩] (str "t")
        [(0, {⟨str "x", 1⟩})] 0 1).1 0 = some {⟨str "x", 1⟩} ∧
      (join_services_heap [⟨str "p", [str "x"], [], []⟩] (str "t")
        [(0, {⟨str "x", 1⟩})] 0 1).2.1 ≠ 0 ∧
      heapGet (join_services_heap [⟨str "p", [str "x"], [], []⟩] (str "t")
          [(0, {⟨str "x", 1⟩})] 0 1).1
        (join_services_heap [⟨str "p", [str "x"], [], []⟩] (str "t")
          [(0, {⟨str "x", 1⟩})] 0 1).2.1 =
        some (join_services [⟨str "p", [str "x"], [], []⟩] (str "t")
          {⟨str "x", 1⟩}).1 ∧
      (join_services_heap [⟨str "p", [str "x"], [], []⟩] (str "t")
        [(0, {⟨str "x", 1⟩})] 0 1).2.2 =
        (join_services [⟨str "p", [str "x"], [], []⟩] (str "t")
          {⟨str "x", 1⟩}).2 :=
  join_services_heap_frame [⟨str "p", [str "x"], [], []⟩] (str "t")
    [(0, {⟨str "x", 1⟩})] 0 1 {⟨str "x", 1⟩} (by rfl) (by rfl)

/-! ## Command templating (`bscan/models.py`, `DetectedService`)

`_fill_template` substitutes the placeholders `<target>`, `<wordlist>`,
`<userlist>`, `<passlist>`, `<ports>`, `<port>`, `<fout>` with Python
`str.replace`.  For reasoning, a template is viewed as a list of segments:
literal runs (containing no `'<'`) and placeholder tokens. -/

/-- The seven template placeholders of `models.py`. -/
inductive Placeholder where
  | target | wordlist | userlist | passlist | ports | port | fout
deriving DecidableEq, Repr

/-- The literal text of a placeholder. -/
def phStr : Placeholder → Str
  | .target => str "<target>"
  | .wordlist => str "<wordlist>"
  | .userlist => str "<userlist>"
  | .passlist => str "<passlist>"
  | .ports => str "<ports>"
  | .port => str "<port>"
  | .fout => str "<fout>"

/-- A template segment: a literal run or a placeholder token. -/
inductive Seg where
  | lit (l : Str)
  | ph (p : Placeholder)
deriving DecidableEq, Repr

def renderSeg : Seg → Str
  | .lit l => l
  | .ph p => phStr p

/-- The template text denoted by a segment list. -/
def render (segs : List Seg) : Str := (segs.map renderSeg).flatten

/-- A well-placed template: every literal run is free of `'<'`, so `'<'`
occurs in the rendered text only at the start of a placeholder. -/
def SegsWF (segs : List Seg) : Prop := ∀ l, Seg.lit l ∈ segs → '<' ∉ l

lemma phStr_eq (p : Placeholder) : phStr p = '<' :: (phStr p).tail := by
  cases p <;> rfl

lemma phStr_tail_no_lt (p : Placeholder) : '<' ∉ (phStr p).tail := by
  cases p <;> decide

lemma phStr_ne_nil (p : Placeholder) : phStr p ≠ [] := by
  cases p <;> decide

lemma phStr_not_prefix {p q : Placeholder} (h : p ≠ q) :
    ¬ phStr p <+: phStr q := by
  cases p <;> cases q <;> first
    | exact absurd rfl h
    | decide

lemma phStr_not_prefix_append {p q : Placeholder} (h : p ≠ q) (s : Str) :
    ¬ phStr p <+: (phStr q ++ s) := by
  intro hpre
  rcases List.prefix_or_prefix_of_prefix hpre (List.prefix_append _ s) with
    hc | hc
  · exact phStr_not_prefix h hc
  · exact phStr_not_prefix (Ne.symm h) hc

/-- One scanning step of `pyReplace`, as an unfolding equation. -/
lemma pyReplace_cons (pat rep : Str) (c : Char) (rest : Str) :
    pyReplace pat rep (c :: rest) =
      if pat ≠ [] ∧ pat.isPrefixOf (c :: rest) then
        rep ++ pyReplaceAux pat rep rest.length (rest.drop (pat.length - 1))
      else c :: pyReplace pat rep rest := by
  show pyReplaceAux pat rep (rest.length + 1) (c :: rest) = _
  rw [pyReplaceAux]
  rfl

/-- Scanning skips a `'<'`-free literal run. -/
lemma pyReplace_append_lit (p : Placeholder) (rep l s : Str)
    (hl : '<' ∉ l) :
    pyReplace (phStr p) rep (l ++ s) = l ++ pyReplace (phStr p) rep s := by
  induction l with
  | nil => rfl
  | cons c l' ih =>
    have hc : c ≠ '<' := fun hc => hl (hc ▸ List.mem_cons_self c l')
    have hnp : ¬(phStr p ≠ [] ∧ (phStr p).isPrefixOf (c :: (l' ++ s))) := by
      rintro ⟨-, hpre⟩
      rw [List.isPrefixOf_iff_prefix, phStr_eq p] at hpre
      rcases hpre with ⟨t, ht⟩
      exact hc (List.head_eq_of_cons_eq ht.symm)
    rw [List.cons_append, pyReplace_cons, if_neg hnp,
      ih (fun hm => hl (List.mem_cons_of_mem c hm)), List.cons_append]

/-- Scanning consumes a leading occurrence of the scanned placeholder. -/
lemma pyReplace_append_self (p : Placeholder) (rep s : Str) :
    pyReplace (phStr p) rep (phStr p ++ s) =
      rep ++ pyReplace (phStr p) rep s := by
  obtain ⟨t, hpt⟩ : ∃ t, phStr p = '<' :: t := ⟨(phStr p).tail, phStr_eq p⟩
  have hpre : (phStr p).isPrefixOf (phStr p ++ s) := by
    rw [List.isPrefixOf_iff_prefix]
    exact List.prefix_append _ _
  conv_lhs => rw [hpt, List.cons_append]
  rw [pyReplace_cons, if_pos ⟨by rw [← hpt]; exact phStr_ne_nil p, by
    rw [← List.cons_append, ← hpt]; exact hpre⟩]
  have hlen : ('<' :: t : Str).length - 1 = t.length := by simp
  rw [← hpt, hpt, hlen, List.drop_left,
    pyReplaceAux_eq_pyReplace _ _ (by simp), ← hpt]

/-- Scanning skips an occurrence of a *different* placeholder. -/
lemma pyReplace_append_ph_ne (p q : Placeholder) (rep s : Str)
    (h : q ≠ p) :
    pyReplace (phStr p) rep (phStr q ++ s) =
      phStr q ++ pyReplace (phStr p) rep s := by
  obtain ⟨t, hqt, htl⟩ : ∃ t, phStr q = '<' :: t ∧ '<' ∉ t :=
    ⟨(phStr q).tail, phStr_eq q, phStr_tail_no_lt q⟩
  have hnp : ¬(phStr p ≠ [] ∧ (phStr p).isPrefixOf ('<' :: (t ++ s))) := by
    rintro ⟨-, hpre⟩
    rw [List.isPrefixOf_iff_prefix, ← List.cons_append, ← hqt] at hpre
    exact phStr_not_prefix_append (Ne.symm h) s hpre
  conv_lhs => rw [hqt, List.cons_append]
  rw [pyReplace_cons, if_neg hnp,
    pyReplace_append_lit p rep t s htl, hqt, List.cons_append]

/-- Substituting placeholder `p` by `rep` at segment level. -/
def substSeg (p : Placeholder) (rep : Str) : Seg → Seg
  | .lit l => .lit l
  | .ph q => if q = p then .lit rep else .ph q

lemma render_nil : render [] = [] := rfl

lemma render_cons (sg : Seg) (segs : List Seg) :
    render (sg :: segs) = renderSeg sg ++ render segs := by
  simp [render]

/-- `str.replace` on a well-placed template is segment-wise substitution. -/
lemma pyReplace_render (p : Placeholder) (rep : Str) (segs : List Seg)
    (hwf : SegsWF segs) :
    pyReplace (phStr p) rep (render segs) =
      render (segs.map (substSeg p rep)) := by
  induction segs with
  | nil => rfl
  | cons sg segs ih =>
    have hwf' : SegsWF segs := fun l hl => hwf l (List.mem_cons_of_mem sg hl)
    rw [render_cons, List.map_cons, render_cons]
    cases sg with
    | lit l =>
      simp only [renderSeg, substSeg]
      rw [pyReplace_append_lit p rep l _ (hwf l (List.mem_cons_self _ _)),
        ih hwf']
    | ph q =>
      by_cases hq : q = p
      · subst hq
        simp only [renderSeg, substSeg]
        rw [pyReplace_append_self, ih hwf']
        simp
      · simp only [renderSeg, substSeg, if_neg hq]
        rw [pyReplace_append_ph_ne p q rep _ hq, ih hwf']

lemma segsWF_map_substSeg {segs : List Seg} (hwf : SegsWF segs)
    {p : Placeholder} {rep : Str} (hrep : '<' ∉ rep) :
    SegsWF (segs.map (substSeg p rep)) := by
  intro l hl
  rw [List.mem_map] at hl
  obtain ⟨sg, hsg, hout⟩ := hl
  cases sg with
  | lit l' =>
    obtain rfl : l' = l := by simpa [substSeg] using hout
    exact hwf _ hsg
  | ph q =>
    by_cases hq : q = p
    · subst hq
      obtain rfl : rep = l := by simpa [substSeg] using hout
      exact hrep
    · simp [substSeg, hq] at hout

lemma ph_mem_map_substSeg {segs : List Seg} {p q : Placeholder} {rep : Str} :
    Seg.ph q ∈ segs.map (substSeg p rep) ↔ q ≠ p ∧ Seg.ph q ∈ segs := by
  rw [List.mem_map]
  constructor
  · rintro ⟨sg, hsg, hout⟩
    cases sg with
    | lit l => simp [substSeg] at hout
    | ph q' =>
      by_cases hq' : q' = p
      · simp [substSeg, hq'] at hout
      · obtain rfl : q' = q := by simpa [substSeg, hq'] using hout
        exact ⟨hq', hsg⟩
  · rintro ⟨hq, hmem⟩
    exact ⟨Seg.ph q, hmem, by simp [substSeg, hq]⟩

/-- A placeholder occurs as a substring of a well-placed template iff it is
one of the template's segments. -/
lemma phStr_infix_render_iff (p : Placeholder) (segs : List Seg)
    (hwf : SegsWF segs) :
    phStr p <:+: render segs ↔ Seg.ph p ∈ segs := by
  induction segs with
  | nil =>
    simp only [render_nil, List.infix_nil, List.not_mem_nil, iff_false]
    exact phStr_ne_nil p
  | cons sg segs ih =>
    have hwf' : SegsWF segs := fun l hl => hwf l (List.mem_cons_of_mem sg hl)
    rw [render_cons, List.mem_cons]
    have hfree : ∀ l : Str, '<' ∉ l →
        (phStr p <:+: (l ++ render segs) → phStr p <:+: render segs) := by
      intro l hl
      induction l with
      | nil => exact id
      | cons c l' ihl =>
        intro hinf
        rw [List.cons_append, List.infix_cons_iff] at hinf
        rcases hinf with hpre | hinf
        · exfalso
          rw [phStr_eq p] at hpre
          rcases hpre with ⟨t, ht⟩
          exact hl (List.head_eq_of_cons_eq ht.symm ▸
            List.mem_cons_self c l')
        · exact ihl (fun hm => hl (List.mem_cons_of_mem c hm)) hinf
    cases sg with
    | lit l =>
      have hl := hwf l (List.mem_cons_self _ _)
      constructor
      · intro hinf
        exact Or.inr ((ih hwf').mp (hfree l hl hinf))
      · rintro (hlit | hmem)
        · exact absurd hlit (by simp)
        · exact ((ih hwf').mpr hmem).trans
            ⟨l, [], by simp [renderSeg]⟩
    | ph q =>
      by_cases hq : q = p
      · subst hq
        simp only [renderSeg, true_or, iff_true]
        exact (List.prefix_append (phStr q) (render segs)).isInfix
      · constructor
        · intro hinf
          refine Or.inr ((ih hwf').mp ?_)
          obtain ⟨t, hqt, htl⟩ : ∃ t, phStr q = '<' :: t ∧ '<' ∉ t :=
            ⟨(phStr q).tail, phStr_eq q, phStr_tail_no_lt q⟩
          rw [renderSeg, hqt, List.cons_append, List.infix_cons_iff] at hinf
          rcases hinf with hpre | hinf
          · exfalso
            rw [← List.cons_append, ← hqt] at hpre
            exact phStr_not_prefix_append
              (fun hpq => hq hpq.symm) (render segs) hpre
          · exact hfree t htl hinf
        · rintro (hph | hmem)
          · exfalso
            apply hq
            injection hph with h
            exact h.symm
          · exact ((ih hwf').mpr hmem).trans ⟨phStr q, [], by simp [renderSeg]⟩

/-! ### `_fill_template`, `build_scans`, `build_recommendations` -/

/-- A decimal digit character (used to model Python's `str(int)`). -/
def digitChar (n : Nat) : Char :=
  if n = 0 then '0' else if n = 1 then '1' else if n = 2 then '2'
  else if n = 3 then '3' else if n = 4 then '4' else if n = 5 then '5'
  else if n = 6 then '6' else if n = 7 then '7' else if n = 8 then '8'
  else if n = 9 then '9' else '*'

/-- Python's `str(n)` for a natural number, digit by digit.  One digit is
produced per fuel unit after dividing by ten, so `fuel = n` suffices. -/
def natToCharsAux : Nat → Nat → Str
  | 0, n => [digitChar n]
  | fuel + 1, n =>
    if n < 10 then [digitChar n]
    else natToCharsAux fuel (n / 10) ++ [digitChar (n % 10)]

/-- Python's `str(n)` for a natural number. -/
def natToChars (n : Nat) : Str := natToCharsAux n n

lemma digitChar_ne_lt (n : Nat) : digitChar n ≠ '<' := by
  unfold digitChar
  split_ifs <;> decide

lemma natToCharsAux_no_lt (fuel n : Nat) : '<' ∉ natToCharsAux fuel n := by
  induction fuel generalizing n with
  | zero => simpa [natToCharsAux] using (digitChar_ne_lt n).symm
  | succ fuel ih =>
    by_cases h : n < 10
    · simpa [natToCharsAux, h] using (digitChar_ne_lt n).symm
    · simp only [natToCharsAux, if_neg h, List.mem_append,
        List.mem_singleton]
      rintro (hm | hm)
      · exact ih (n / 10) hm
      · exact digitChar_ne_lt (n % 10) hm.symm

lemma natToChars_no_lt (n : Nat) : '<' ∉ natToChars n :=
  natToCharsAux_no_lt n n

/-- Python's `sep.join(parts)`. -/
def joinSep (sep : Str) : List Str → Str
  | [] => []
  | [x] => x
  | x :: xs => x ++ sep ++ joinSep sep xs

lemma joinSep_no_lt (sep : Str) (parts : List Str) (hsep : '<' ∉ sep)
    (hp : ∀ x ∈ parts, '<' ∉ x) : '<' ∉ joinSep sep parts := by
  induction parts with
  | nil => simp [joinSep]
  | cons x xs ih =>
    cases xs with
    | nil => exact hp x (List.mem_cons_self _ _)
    | cons y ys =>
      show '<' ∉ x ++ sep ++ joinSep sep (y :: ys)
      simp only [List.mem_append]
      rintro ((hm | hm) | hm)
      · exact hp x (List.mem_cons_self _ _) hm
      · exact hsep hm
      · exact ih (fun z hz => hp z (List.mem_cons_of_mem x hz)) hm

/-- `DetectedService.port_str` (`models.py` lines 37-39):
`','.join([str(p) for p in self.ports])`. -/
def port_str (ports : List Nat) : Str := joinSep (str ",") (ports.map natToChars)

lemma port_str_no_lt (ports : List Nat) : '<' ∉ port_str ports := by
  refine joinSep_no_lt _ _ (by decide) ?_
  intro x hx
  rw [List.mem_map] at hx
  obtain ⟨n, -, rfl⟩ := hx
  exact natToChars_no_lt n

/-- The configuration values `_fill_template` reads: the three wordlists from
the runtime store (`models.py` lines 44-46) and `output-dir` consumed by
`get_scan_file`. -/
structure TemplateConfig where
  webWordList : Str
  bruteUserList : Str
  brutePassList : Str
  outputDir : Str

/-- `get_scan_file` (`dir_structure.py` lines 8-10, 23-25, 53-55):
`os.path.join(output_dir, f'{target}.bscan.d', 'services', scan_name)`. -/
def get_scan_file (cfg : TemplateConfig) (target scanName : Str) : Str :=
  cfg.outputDir ++ str "/" ++ target ++ str ".bscan.d" ++ str "/" ++
    str "services" ++ str "/" ++ scanName

lemma get_scan_file_no_lt {cfg : TemplateConfig} {target scanName : Str}
    (hO : '<' ∉ cfg.outputDir) (hT : '<' ∉ target)
    (hS : '<' ∉ scanName) : '<' ∉ get_scan_file cfg target scanName := by
  intro hm
  simp only [get_scan_file, List.mem_append] at hm
  rcases hm with (((((((h | h) | h) | h) | h) | h) | h) | h)
  · exact hO h
  · exact absurd h (by decide)
  · exact hT h
  · exact absurd h (by decide)
  · exact absurd h (by decide)
  · exact absurd h (by decide)
  · exact absurd h (by decide)
  · exact hS h

/-- The `while file_exists(fout)` probe of `_fill_template`'s port-less
branch (`models.py` lines 66-73): starting from `<name>.<scan_name>`, try
`<name>.0.<scan_name>`, `<name>.1.<scan_name>`, … while the candidate exists.
The loop is bounded by fuel; every returned string, the fuel-exhausted case
included, is one of the candidate names, which is all the theorems below
rely on. -/
def probeFoutAux (cfg : TemplateConfig) (existing : List Str)
    (target name scanName : Str) : Nat → Nat → Str → Str
  | 0, _, fout => fout
  | fuel + 1, i, fout =>
    if fout ∈ existing then
      probeFoutAux cfg existing target name scanName fuel (i + 1)
        (get_scan_file cfg target
          (name ++ str "." ++ natToChars i ++ str "." ++ scanName))
    else fout

lemma probeFoutAux_no_lt (cfg : TemplateConfig) (existing : List Str)
    (target name scanName : Str) (hO : '<' ∉ cfg.outputDir)
    (hT : '<' ∉ target) (hN : '<' ∉ name) (hS : '<' ∉ scanName) :
    ∀ fuel i fout, '<' ∉ fout →
      '<' ∉ probeFoutAux cfg existing target name scanName fuel i fout := by
  intro fuel
  induction fuel with
  | zero => exact fun i fout h => h
  | succ fuel ih =>
    intro i fout h
    by_cases hex : fout ∈ existing
    · rw [probeFoutAux, if_pos hex]
      refine ih (i + 1) _ (get_scan_file_no_lt hO hT ?_)
      intro hm
      simp only [List.mem_append] at hm
      rcases hm with ((((h | h) | h) | h) | h)
      · exact hN h
      · exact absurd h (by decide)
      · exact natToChars_no_lt i h
      · exact absurd h (by decide)
      · exact hS h
    · rwa [probeFoutAux, if_neg hex]

/-- `DetectedService._fill_template` (`models.py` lines 41-75): substitute
`<target>` and the three wordlists, then branch on which of `<ports>` /
`<port>` occurs, substituting the port placeholder and `<fout>`. -/
def fillTemplate (cfg : TemplateConfig) (existing : List Str)
    (ds : DetectedService) (scanName cmd : Str) : List Str :=
  let cmd := pyReplace (str "<passlist>") cfg.brutePassList
    (pyReplace (str "<userlist>") cfg.bruteUserList
      (pyReplace (str "<wordlist>") cfg.webWordList
        (pyReplace (str "<target>") ds.target cmd)))
  if pyContains cmd (str "<ports>") then
    let fout := get_scan_file cfg ds.target
      (ds.name ++ str "." ++ joinSep (str ".") (ds.ports.map natToChars) ++
        str "." ++ scanName)
    [pyReplace (str "<fout>") fout
      (pyReplace (str "<ports>") (port_str ds.ports) cmd)]
  else if pyContains cmd (str "<port>") then
    ds.ports.map (fun port =>
      let fout := get_scan_file cfg ds.target
        (ds.name ++ str "." ++ natToChars port ++ str "." ++ scanName)
      pyReplace (str "<fout>") fout
        (pyReplace (str "<port>") (natToChars port) cmd))
  else
    let fout := probeFoutAux cfg existing ds.target ds.name scanName
      (existing.length + 1) 0
      (get_scan_file cfg ds.target (ds.name ++ str "." ++ scanName))
    [pyReplace (str "<fout>") fout cmd]

/-- `DetectedService.build_scans` (`models.py` lines 23-28): extend with the
filled templates of each `(scan, cmd)` item in declaration order. -/
def build_scans (cfg : TemplateConfig) (existing : List Str)
    (ds : DetectedService) : List Str :=
  (ds.scans.map (fun sc => fillTemplate cfg existing ds sc.1 sc.2)).flatten

/-- `DetectedService.build_recommendations` (`models.py` lines 30-35):
extend with the filled templates of each recommendation, scan id
`'rec' + str(i)`. -/
def build_recommendations (cfg : TemplateConfig) (existing : List Str)
    (ds : DetectedService) : List Str :=
  (ds.recommendations.enum.map (fun p =>
    fillTemplate cfg existing ds (str "rec" ++ natToChars p.1) p.2)).flatten

lemma fillTemplate_no_placeholder (cfg : TemplateConfig) (existing : List Str)
    (ds : DetectedService) (scanName : Str) (segs : List Seg)
    (hT : '<' ∉ ds.target) (hN : '<' ∉ ds.name) (hO : '<' ∉ cfg.outputDir)
    (hW : '<' ∉ cfg.webWordList) (hU : '<' ∉ cfg.bruteUserList)
    (hP : '<' ∉ cfg.brutePassList) (hS : '<' ∉ scanName)
    (hwf : SegsWF segs)
    (hnot : ¬(Seg.ph .ports ∈ segs ∧ Seg.ph .port ∈ segs)) :
    ∀ c ∈ fillTemplate cfg existing ds scanName (render segs),
      ∀ p : Placeholder, ¬ pyContains c (phStr p) := by
  set segs1 := segs.map (substSeg .target ds.target) with hsegs1
  set segs2 := segs1.map (substSeg .wordlist cfg.webWordList) with hsegs2
  set segs3 := segs2.map (substSeg .userlist cfg.bruteUserList) with hsegs3
  set segs4 := segs3.map (substSeg .passlist cfg.brutePassList) with hsegs4
  have w1 : SegsWF segs1 := segsWF_map_substSeg hwf hT
  have w2 : SegsWF segs2 := segsWF_map_substSeg w1 hW
  have w3 : SegsWF segs3 := segsWF_map_substSeg w2 hU
  have w4 : SegsWF segs4 := segsWF_map_substSeg w3 hP
  have hcmd : pyReplace (str "<passlist>") cfg.brutePassList
      (pyReplace (str "<userlist>") cfg.bruteUserList
        (pyReplace (str "<wordlist>") cfg.webWordList
          (pyReplace (str "<target>") ds.target (render segs)))) =
      render segs4 := by
    show pyReplace (phStr .passlist) cfg.brutePassList
      (pyReplace (phStr .userlist) cfg.bruteUserList
        (pyReplace (phStr .wordlist) cfg.webWordList
          (pyReplace (phStr .target) ds.target (render segs)))) = _
    rw [pyReplace_render _ _ _ hwf, pyReplace_render _ _ _ w1,
      pyReplace_render _ _ _ w2, pyReplace_render _ _ _ w3]
  have hmem4 : ∀ q : Placeholder, Seg.ph q ∈ segs4 ↔
      (q ≠ .passlist ∧ q ≠ .userlist ∧ q ≠ .wordlist ∧ q ≠ .target ∧
        Seg.ph q ∈ segs) := by
    intro q
    rw [hsegs4, ph_mem_map_substSeg, hsegs3, ph_mem_map_substSeg,
      hsegs2, ph_mem_map_substSeg, hsegs1, ph_mem_map_substSeg]
  simp only [fillTemplate, hcmd]
  by_cases hports : pyContains (render segs4) (str "<ports>")
  · rw [if_pos hports]
    have hports4 : Seg.ph .ports ∈ segs4 :=
      (phStr_infix_render_iff .ports segs4 w4).mp hports
    have hportssegs : Seg.ph Placeholder.ports ∈ segs :=
      ((hmem4 .ports).mp hports4).2.2.2.2
    intro c hc p
    rw [List.mem_singleton] at hc
    subst hc
    set fout := get_scan_file cfg ds.target
      (ds.name ++ str "." ++ joinSep (str ".") (ds.ports.map natToChars) ++
        str "." ++ scanName) with hfout
    have hfoutlt : '<' ∉ fout := by
      refine get_scan_file_no_lt hO hT ?_
      intro hm
      simp only [List.mem_append] at hm
      rcases hm with ((((h | h) | h) | h) | h)
      · exact hN h
      · exact absurd h (by decide)
      · exact joinSep_no_lt _ _ (by decide) (by
          intro x hx
          rw [List.mem_map] at hx
          obtain ⟨n, -, rfl⟩ := hx
          exact natToChars_no_lt n) h
      · exact absurd h (by decide)
      · exact hS h
    set segs5 := segs4.map (substSeg .ports (port_str ds.ports)) with hsegs5
    have w5 : SegsWF segs5 := segsWF_map_substSeg w4 (port_str_no_lt ds.ports)
    set segs6 := segs5.map (substSeg .fout fout) with hsegs6
    have w6 : SegsWF segs6 := segsWF_map_substSeg w5 hfoutlt
    have hre : pyReplace (str "<fout>") fout
        (pyReplace (str "<ports>") (port_str ds.ports) (render segs4)) =
        render segs6 := by
      show pyReplace (phStr .fout) fout
        (pyReplace (phStr .ports) (port_str ds.ports) (render segs4)) = _
      rw [pyReplace_render _ _ _ w4, pyReplace_render _ _ _ w5]
    rw [hre]
    rw [show pyContains (render segs6) (phStr p) = (phStr p <:+: render segs6)
      from rfl, phStr_infix_render_iff p segs6 w6]
    intro hp6
    rw [hsegs6, ph_mem_map_substSeg, hsegs5, ph_mem_map_substSeg,
      hmem4] at hp6
    obtain ⟨hf, hpp, h1, h2, h3, h4, hpsegs⟩ := hp6
    have hp : p = .port := by cases p <;> simp_all
    exact hnot ⟨hportssegs, hp ▸ hpsegs⟩
  · rw [if_neg hports]
    have hports4 : Seg.ph Placeholder.ports ∉ segs4 := fun hm =>
      hports ((phStr_infix_render_iff .ports segs4 w4).mpr hm)
    by_cases hport : pyContains (render segs4) (str "<port>")
    · rw [if_pos hport]
      intro c hc p
      rw [List.mem_map] at hc
      obtain ⟨port, -, rfl⟩ := hc
      set fout := get_scan_file cfg ds.target
        (ds.name ++ str "." ++ natToChars port ++ str "." ++ scanName)
        with hfout
      have hfoutlt : '<' ∉ fout := by
        refine get_scan_file_no_lt hO hT ?_
        intro hm
        simp only [List.mem_append] at hm
        rcases hm with ((((h | h) | h) | h) | h)
        · exact hN h
        · exact absurd h (by decide)
        · exact natToChars_no_lt port h
        · exact absurd h (by decide)
        · exact hS h
      set segs5 := segs4.map (substSeg .port (natToChars port)) with hsegs5
      have w5 : SegsWF segs5 := segsWF_map_substSeg w4 (natToChars_no_lt port)
      set segs6 := segs5.map (substSeg .fout fout) with hsegs6
      have w6 : SegsWF segs6 := segsWF_map_substSeg w5 hfoutlt
      have hre : pyReplace (str "<fout>") fout
          (pyReplace (str "<port>") (natToChars port) (render segs4)) =
          render segs6 := by
        show pyReplace (phStr .fout) fout
          (pyReplace (phStr .port) (natToChars port) (render segs4)) = _
        rw [pyReplace_render _ _ _ w4, pyReplace_render _ _ _ w5]
      rw [hre]
      rw [show pyContains (render segs6) (phStr p) =
        (phStr p <:+: render segs6) from rfl,
        phStr_infix_render_iff p segs6 w6]
      intro hp6
      rw [hsegs6, ph_mem_map_substSeg, hsegs5, ph_mem_map_substSeg] at hp6
      obtain ⟨hf, hpp, hp4⟩ := hp6
      have hm4 := (hmem4 p).mp hp4
      obtain ⟨h1, h2, h3, h4, -⟩ := hm4
      have hp : p = .ports := by cases p <;> simp_all
      exact hports4 (hp ▸ hp4)
    · rw [if_neg hport]
      have hport4 : Seg.ph Placeholder.port ∉ segs4 := fun hm =>
        hport ((phStr_infix_render_iff .port segs4 w4).mpr hm)
      intro c hc p
      rw [List.mem_singleton] at hc
      subst hc
      have hfoutlt : '<' ∉ probeFoutAux cfg existing ds.target ds.name
          scanName (existing.length + 1) 0
          (get_scan_file cfg ds.target (ds.name ++ str "." ++ scanName)) := by
        refine probeFoutAux_no_lt cfg existing ds.target ds.name scanName
          hO hT hN hS _ _ _ (get_scan_file_no_lt hO hT ?_)
        intro hm
        simp only [List.mem_append] at hm
        rcases hm with ((h | h) | h)
        · exact hN h
        · exact absurd h (by decide)
        · exact hS h
      set fout := probeFoutAux cfg existing ds.target ds.name scanName
        (existing.length + 1) 0
        (get_scan_file cfg ds.target (ds.name ++ str "." ++ scanName))
        with hfout
      set segs5 := segs4.map (substSeg .fout fout) with hsegs5
      have w5 : SegsWF segs5 := segsWF_map_substSeg w4 hfoutlt
      have hre : pyReplace (str "<fout>") fout (render segs4) =
          render segs5 := by
        show pyReplace (phStr .fout) fout (render segs4) = _
        rw [pyReplace_render _ _ _ w4]
      rw [hre]
      rw [show pyContains (render segs5) (phStr p) =
        (phStr p <:+: render segs5) from rfl,
        phStr_infix_render_iff p segs5 w5]
      intro hp5
      rw [hsegs5, ph_mem_map_substSeg] at hp5
      obtain ⟨hf, hp4⟩ := hp5
      have hm4 := (hmem4 p).mp hp4
      obtain ⟨h1, h2, h3, h4, -⟩ := hm4
      have hp : p = .ports ∨ p = .port := by cases p <;> simp_all
      rcases hp with hp | hp
      · exact hports4 (hp ▸ hp4)
      · exact hport4 (hp ▸ hp4)

/-- Boolean well-placedness check for one segment. -/
def segWFb : Seg → Bool
  | .lit l => decide ('<' ∉ l)
  | .ph _ => true

lemma segsWF_of_all (segs : List Seg) (h : segs.all segWFb = true) :
    SegsWF segs := by
  intro l hl
  rw [List.all_eq_true] at h
  have := h (Seg.lit l) hl
  exact of_decide_eq_true this

/-- **C5 (counterexample)** A template containing both `<ports>` and
`<port>` takes `_fill_template`'s `<ports>` branch (`models.py` line 48),
which substitutes only `<ports>` and `<fout>`: the emitted command retains a
literal `<port>` substring. -/
theorem build_scans_retains_port_placeholder :
    build_scans ⟨str "w", str "u", str "p", str "o"⟩ []
        ⟨str "svc", str "t", [1], [(str "s", str "a <ports> b <port>")],
          []⟩ =
      [str "a 1 b <port>"] ∧
      pyContains (str "a 1 b <port>") (str "<port>") := by
  constructor
  · decide
  · decide

/-- **C5 (amended)** Template substitution by `build_scans` and
`build_recommendations` is total — no emitted command or recommendation line
contains any of the seven literal placeholder substrings — provided the
substituted values (target, service name, output directory, wordlists) are
free of `'<'` and every configured template is well-placed (its `'<'`
characters occur only as placeholder starts) and does not contain both
`<ports>` and `<port>`.  A template containing both retains its `<port>`
occurrences (see the counterexample). -/
theorem build_outputs_no_placeholder (cfg : TemplateConfig)
    (existing : List Str) (ds : DetectedService)
    (hT : '<' ∉ ds.target) (hN : '<' ∉ ds.name) (hO : '<' ∉ cfg.outputDir)
    (hW : '<' ∉ cfg.webWordList) (hU : '<' ∉ cfg.bruteUserList)
    (hP : '<' ∉ cfg.brutePassList)
    (hscans : ∀ sc ∈ ds.scans, '<' ∉ sc.1 ∧ ∃ sg : List Seg,
      sc.2 = render sg ∧ SegsWF sg ∧
        ¬(Seg.ph .ports ∈ sg ∧ Seg.ph .port ∈ sg))
    (hrecs : ∀ cmd ∈ ds.recommendations, ∃ sg : List Seg,
      cmd = render sg ∧ SegsWF sg ∧
        ¬(Seg.ph .ports ∈ sg ∧ Seg.ph .port ∈ sg)) :
    (∀ c ∈ build_scans cfg existing ds, ∀ p : Placeholder,
      ¬ pyContains c (phStr p)) ∧
    (∀ c ∈ build_recommendations cfg existing ds, ∀ p : Placeholder,
      ¬ pyContains c (phStr p)) := by
  constructor
  · intro c hc p
    rw [build_scans, List.mem_flatten] at hc
    obtain ⟨l, hl, hcl⟩ := hc
    rw [List.mem_map] at hl
    obtain ⟨sc, hsc, rfl⟩ := hl
    obtain ⟨hid, sg, hsg, hwf, hnb⟩ := hscans sc hsc
    rw [hsg] at hcl
    exact fillTemplate_no_placeholder cfg existing ds sc.1 sg
      hT hN hO hW hU hP hid hwf hnb c hcl p
  · intro c hc p
    rw [build_recommendations, List.mem_flatten] at hc
    obtain ⟨l, hl, hcl⟩ := hc
    rw [List.mem_map] at hl
    obtain ⟨pr, hpr, rfl⟩ := hl
    have hmem : pr.2 ∈ ds.recommendations := by
      rw [List.mem_enum_iff_getElem?] at hpr
      exact List.getElem?_mem hpr
    obtain ⟨sg, hsg, hwf, hnb⟩ := hrecs pr.2 hmem
    rw [hsg] at hcl
    have hid : '<' ∉ str "rec" ++ natToChars pr.1 := by
      intro hm
      rw [List.mem_append] at hm
      rcases hm with h | h
      · exact absurd h (by decide)
      · exact natToChars_no_lt pr.1 h
    exact fillTemplate_no_placeholder cfg existing ds
      (str "rec" ++ natToChars pr.1) sg hT hN hO hW hU hP hid hwf hnb c hcl p

/-- **C5 (witness for the amended theorem)** The amended theorem applied to
an `http` service on ports 80 and 8080 with one well-placed scan template
and one well-placed recommendation template. -/
theorem build_outputs_no_placeholder_witness :
    (∀ c ∈ build_scans
        ⟨str "/usr/share/dirb/wordlists/big.txt",
          str "/usr/share/wordlists/metasploit/namelist.txt",
          str "/usr/share/wordlists/fasttrack.txt", str "/out"⟩ []
        ⟨str "http", str "10.0.0.1", [80, 8080],
          [(str "nikto", render [Seg.lit (str "nikto -host "),
            Seg.ph .target, Seg.lit (str " -p "), Seg.ph .ports,
            Seg.lit (str " | tee "), Seg.ph .fout])],
          [render [Seg.lit (str "curl http://"), Seg.ph .target,
            Seg.lit (str ":"), Seg.ph .port]]⟩,
      ∀ p : Placeholder, ¬ pyContains c (phStr p)) ∧
    (∀ c ∈ build_recommendations
        ⟨str "/usr/share/dirb/wordlists/big.txt",
          str "/usr/share/wordlists/metasploit/namelist.txt",
          str "/usr/share/wordlists/fasttrack.txt", str "/out"⟩ []
        ⟨str "http", str "10.0.0.1", [80, 8080],
          [(str "nikto", render [Seg.lit (str "nikto -host "),
            Seg.ph .target, Seg.lit (str " -p "), Seg.ph .ports,
            Seg.lit (str " | tee "), Seg.ph .fout])],
          [render [Seg.lit (str "curl http://"), Seg.ph .target,
            Seg.lit (str ":"), Seg.ph .port]]⟩,
      ∀ p : Placeholder, ¬ pyContains c (phStr p)) := by
  refine build_outputs_no_placeholder _ [] _
    (by decide) (by decide) (by decide) (by decide) (by decide) (by decide)
    ?_ ?_
  · intro sc hsc
    rw [List.mem_singleton] at hsc
    subst hsc
    exact ⟨by decide,
      [Seg.lit (str "nikto -host "), Seg.ph .target, Seg.lit (str " -p "),
        Seg.ph .ports, Seg.lit (str " | tee "), Seg.ph .fout], rfl,
      segsWF_of_all _ (by decide), by decide⟩
  · intro cmd hcmd
    rw [List.mem_singleton] at hcmd
    subst hcmd
    exact ⟨[Seg.lit (str "curl http://"), Seg.ph .target,
      Seg.lit (str ":"), Seg.ph .port], rfl,
      segsWF_of_all _ (by decide), by decide⟩

/-! ## The runtime store (`bscan/runtime.py`) and configuration
(`bscan/config.py`)

The process-wide `db` mapping is modelled as an association list from key
strings to typed values; `init_config` is modelled as an `Except` chain that
performs the source's checks in source order and, on success, returns the
store with exactly the keys `config.py` writes, in write order.  (On error
the Python `db` retains partial writes, but nothing reads it after `main`
catches the error, so returning only the error is observably faithful.)
Argument parsing is a boundary service: `Namespace` carries the attributes
`init_config` consumes, and `World` carries the filesystem and packaged
configuration inputs. -/

/-- A value stored in the runtime `db` mapping. -/
inductive DbVal where
  | vStr (s : Str)
  | vInt (n : Int)
  | vBool (b : Bool)
  | vPatterns (pats : List Str)
  | vServices (rules : List ServiceRule)
  | vPortScan (name pattern scan : Str)
  | vStrSet (s : Finset Str)
  | vSubprocs (d : List (Str × Finset Str))
  | vSupervisor (maxConcurrency : Int)
deriving DecidableEq

/-- The runtime store `db`. -/
abbrev Db := List (Str × DbVal)

/-- Errors of `bscan/errors.py` that the modelled code raises. -/
inductive BscanErr where
  | configError (msg : Str)
  | internalError (msg : Str)
deriving DecidableEq

def dbLookup (db : Db) (key : Str) : Option DbVal :=
  match db with
  | [] => none
  | (k, v) :: rest => if k = key then some v else dbLookup rest key

/-- `get_db_value` (`runtime.py` lines 205-211): a missing key raises
`BscanInternalError('Attempted to access unknown database key')`. -/
def get_db_value (db : Db) (key : Str) : Except BscanErr DbVal :=
  match dbLookup db key with
  | some v => .ok v
  | none => .error (.internalError
      (str "Attempted to access unknown database key"))

/-- The namespace attributes that `cli.main` and `init_config` consume —
the *interface* `init_config` reads, including `no_service_scans`
(`config.py` line 167).  Note that `get_parsed_args` of this tree defines
no `--no-service-scans` argument, so a parser-produced namespace lacks that
attribute; `ParsedNamespace` and `init_config_parsed` below model that
parser-level account, while `init_config` over this structure isolates the
configuration logic itself.  Integer-valued flags are modelled
post-`int()`; a flag left at its argparse default is `none`. -/
structure Namespace where
  brute_pass_list : Option Str
  brute_user_list : Option Str
  cmd_print_width : Option Int
  config_dir : Option Str
  hard : Bool
  max_concurrency : Option Int
  no_program_check : Bool
  no_file_check : Bool
  no_service_scans : Bool
  output_dir : Option Str
  patterns : Option (List Str)
  ping_sweep : Bool
  quick_only : Bool
  qs_method : Option Str
  status_interval : Option Int
  ts_method : Option Str
  udp : Bool
  udp_method : Option Str
  verbose_status : Bool
  web_word_list : Option Str
  targets : List Str

/-- One top-level table of `port-scans.toml` (`quick`, `thorough` or `udp`):
its `default` key and its method sub-tables `name ↦ (pattern, scan)`. -/
structure PortScanTable where
  dflt : Str
  methods : List (Str × Str × Str)

def methodLookup (tbl : PortScanTable) (name : Str) : Option (Str × Str) :=
  match tbl.methods.find? (fun m => m.1 = name) with
  | some m => some m.2
  | none => none

/-- The boundary inputs `init_config` consumes: filesystem probes, the
working directory, and the packaged/overridden configuration files. -/
structure World where
  fileExists : Str → Bool
  dirExists : Str → Bool
  whichOk : Str → Bool
  validHost : Str → Bool
  skeletonOk : Str → Bool
  cwd : Str
  patternsFile : List Str
  requiredPrograms : List Str
  serviceScans : List ServiceRule
  quickTbl : PortScanTable
  thoroughTbl : PortScanTable
  udpTbl : PortScanTable

/-- Method selection (`config.py` lines 173-215): the CLI flag overrides the
table's `default` key; a name that is not a method sub-table, or is the
literal `default`, is a configuration error. -/
def selectMethod (tbl : PortScanTable) (flag : Option Str) :
    Except BscanErr (Str × Str × Str) :=
  let name := flag.getD tbl.dflt
  match methodLookup tbl name with
  | some ps =>
    if name = str "default" then
      .error (.configError (str "Invalid method specified: default"))
    else .ok (name, ps.1, ps.2)
  | none => .error (.configError (str "Invalid method specified"))

/-- `init_config` (`config.py` lines 90-256): the source's checks in source
order, producing the store entries in write order.  This version runs over
the interface-level `Namespace` (all attributes the function reads
present); `init_config_parsed` below is the same function over the
namespace the CLI parser actually produces, where the line-167 attribute
read fails. -/
def init_config (ns : Namespace) (w : World) : Except BscanErr Db :=
  let brutePass :=
    ns.brute_pass_list.getD (str "/usr/share/wordlists/fasttrack.txt")
  if ns.no_file_check = false ∧ w.fileExists brutePass = false then
    .error (.configError (str "`--brute-pass-list` file does not exist"))
  else
  let bruteUser := ns.brute_user_list.getD
    (str "/usr/share/wordlists/metasploit/namelist.txt")
  if ns.no_file_check = false ∧ w.fileExists bruteUser = false then
    .error (.configError (str "`--brute-user-list` file does not exist"))
  else
  let cmdPrintWidth := ns.cmd_print_width.getD 80
  if cmdPrintWidth < 5 then
    .error (.configError (str "Invalid `--cmd-print-width` value specified"))
  else
  let outputDir := ns.output_dir.getD w.cwd
  if w.dirExists outputDir = false then
    .error (.configError (str "`--output-dir` directory does not exist"))
  else
  if ns.patterns = some [] then
    .error (.configError (str "`--patterns` requires at least one regex"))
  else
  let patterns := w.patternsFile ++ ns.patterns.getD []
  if ns.no_program_check = false ∧
      w.requiredPrograms.any (fun p => w.whichOk p = false) then
    .error (.configError (str "required programs could not be found"))
  else
  match selectMethod w.quickTbl ns.qs_method with
  | .error e => .error e
  | .ok qs =>
  match selectMethod w.thoroughTbl ns.ts_method with
  | .error e => .error e
  | .ok ts =>
  match selectMethod w.udpTbl ns.udp_method with
  | .error e => .error e
  | .ok udpm =>
  let statusInterval := ns.status_interval.getD 30
  let webWordList :=
    ns.web_word_list.getD (str "/usr/share/dirb/wordlists/big.txt")
  if ns.no_file_check = false ∧ w.fileExists webWordList = false then
    .error (.configError (str "`--web-word-list` file does not exist"))
  else
  if ns.ping_sweep then
    .error (.configError (str "`--ping-sweep` option not yet implemented"))
  else
  .ok [(str "active-targets", .vStrSet ∅),
    (str "brute-pass-list", .vStr brutePass),
    (str "brute-user-list", .vStr bruteUser),
    (str "cmd-print-width", .vInt cmdPrintWidth),
    (str "output-dir", .vStr outputDir),
    (str "patterns", .vPatterns patterns),
    (str "no-service-scans", .vBool ns.no_service_scans),
    (str "services", .vServices w.serviceScans),
    (str "quick-scan", .vPortScan qs.1 qs.2.1 qs.2.2),
    (str "thorough-scan", .vPortScan ts.1 ts.2.1 ts.2.2),
    (str "udp-scan", .vPortScan udpm.1 udpm.2.1 udpm.2.2),
    (str "status-interval", .vInt statusInterval),
    (str "subprocesses", .vSubprocs []),
    (str "web-word-list", .vStr webWordList),
    (str "quick-only", .vBool ns.quick_only),
    (str "hard", .vBool ns.hard),
    (str "ping-sweep", .vBool ns.ping_sweep),
    (str "udp", .vBool ns.udp),
    (str "verbose-status", .vBool ns.verbose_status)]

/-- On success, `init_config` returns the store with exactly the written
keys, `ping-sweep` was not requested, and the two runtime-tracking
collections start empty. -/
lemma init_config_ok_shape {ns : Namespace} {w : World} {db : Db}
    (h : init_config ns w = .ok db) :
    ns.ping_sweep = false ∧
    ∃ bp bu od ww : Str, ∃ cpw si : Int, ∃ pats : List Str,
      ∃ qs ts um : Str × Str × Str,
      db = [(str "active-targets", .vStrSet ∅),
        (str "brute-pass-list", .vStr bp),
        (str "brute-user-list", .vStr bu),
        (str "cmd-print-width", .vInt cpw),
        (str "output-dir", .vStr od),
        (str "patterns", .vPatterns pats),
        (str "no-service-scans", .vBool ns.no_service_scans),
        (str "services", .vServices w.serviceScans),
        (str "quick-scan", .vPortScan qs.1 qs.2.1 qs.2.2),
        (str "thorough-scan", .vPortScan ts.1 ts.2.1 ts.2.2),
        (str "udp-scan", .vPortScan um.1 um.2.1 um.2.2),
        (str "status-interval", .vInt si),
        (str "subprocesses", .vSubprocs []),
        (str "web-word-list", .vStr ww),
        (str "quick-only", .vBool ns.quick_only),
        (str "hard", .vBool ns.hard),
        (str "ping-sweep", .vBool ns.ping_sweep),
        (str "udp", .vBool ns.udp),
        (str "verbose-status", .vBool ns.verbose_status)] := by
  simp only [init_config] at h
  repeat' split at h
  any_goals exact Except.noConfusion h
  rw [Except.ok.injEq] at h
  rename_i hps
  exact ⟨by simpa using hps, _, _, _, _, _, _, _, _, _, _, h.symm⟩

/-! ### Subprocess tracking (`runtime.py` lines 249-294, 345-352) -/

def listLookup (d : List (Str × Finset Str)) (target : Str) :
    Option (Finset Str) :=
  match d with
  | [] => none
  | (k, v) :: rest => if k = target then some v else listLookup rest target

def listSet (d : List (Str × Finset Str)) (target : Str) (v : Finset Str) :
    List (Str × Finset Str) :=
  match d with
  | [] => []
  | (k, w) :: rest =>
    (k, if k = target then v else w) :: listSet rest target v

def dbSet (db : Db) (key : Str) (v : DbVal) : Db :=
  match db with
  | [] => []
  | (k, w) :: rest => (k, if k = key then v else w) :: dbSet rest key v

/-- `_get_subproc_set` (`runtime.py` lines 345-352): an uninitialized target
raises `BscanInternalError`.  (A missing `subprocesses` key — impossible
after `init_config` — is modelled as the error its `KeyError` would become.) -/
def get_subproc_set (db : Db) (target : Str) : Except BscanErr (Finset Str) :=
  match dbLookup db (str "subprocesses") with
  | some (.vSubprocs d) =>
    match listLookup d target with
    | some s => .ok s
    | none => .error (.internalError
        (str "Attempted to access uninitialized subprocess set for target "
          ++ target))
  | _ => .error (.internalError
      (str "Attempted to access unknown database key"))

/-- `init_subproc_set` (`runtime.py` lines 249-258). -/
def init_subproc_set (db : Db) (target : Str) : Except BscanErr Db :=
  match dbLookup db (str "subprocesses") with
  | some (.vSubprocs d) =>
    match listLookup d target with
    | some _ => .error (.internalError
        (str "Attempted to initialize existing subprocess set entry for " ++
          str "target " ++ target))
    | none => .ok (dbSet db (str "subprocesses")
        (.vSubprocs (d ++ [(target, ∅)])))
  | _ => .error (.internalError
      (str "Attempted to access unknown database key"))

/-- `add_running_subproc` (`runtime.py` lines 273-282), called by
`proc_spawn` (`scans.py` line 190) right after the subprocess is created. -/
def add_running_subproc (db : Db) (target cmd : Str) : Except BscanErr Db :=
  match dbLookup db (str "subprocesses") with
  | some (.vSubprocs d) =>
    match listLookup d target with
    | some s =>
      if cmd ∈ s then
        .error (.internalError
          (str "Attempted to add already-running subprocess `" ++ cmd ++
            str "` for target " ++ target))
      else .ok (dbSet db (str "subprocesses")
          (.vSubprocs (listSet d target (insert cmd s))))
    | none => .error (.internalError
        (str "Attempted to access uninitialized subprocess set for target "
          ++ target))
  | _ => .error (.internalError
      (str "Attempted to access unknown database key"))

/-! ### The status poller (`runtime.py` lines 297-327) -/

/-- Whether a store value is an integer `≤ 0`. -/
def DbVal.intNonPos : DbVal → Bool
  | .vInt i => i ≤ 0
  | _ => false

/-- The prologue of `status_update_poller` (`runtime.py` lines 297-305): it
reads `status-interval`, `verbose-status` and `cmd-print-length` from the
store, then rejects a non-positive interval with an internal error. -/
def status_update_poller_init (db : Db) :
    Except BscanErr (DbVal × DbVal × DbVal) :=
  match get_db_value db (str "status-interval") with
  | .error e => .error e
  | .ok interval =>
  match get_db_value db (str "verbose-status") with
  | .error e => .error e
  | .ok verbose =>
  match get_db_value db (str "cmd-print-length") with
  | .error e => .error e
  | .ok cmdLen =>
  if interval.intNonPos then
    .error (.internalError
      (str "Attempted status update polling with non-positive interval"))
  else .ok (interval, verbose, cmdLen)

/-! ### `cli.main` (`cli.py` lines 209-304) -/

/-- `--max-concurrency` parsing in `main` (`cli.py` lines 228-236):
default 20, must be `≥ 1`. -/
def parse_max_concurrency (opts : Namespace) : Except BscanErr Int :=
  let mc := opts.max_concurrency.getD 20
  if mc < 1 then
    .error (.configError
      (str "Invalid `--max-concurrency` positive integer value received"))
  else .ok mc

/-- The attributes `get_parsed_args` (`cli.py` lines 45-206) actually
defines: one field per `add_argument` call.  The parser has **no**
`--no-service-scans` argument, so — unlike `Namespace` above, which models
the interface `init_config` reads — a parser-produced namespace carries no
`no_service_scans` attribute. -/
structure ParsedNamespace where
  brute_pass_list : Option Str
  brute_user_list : Option Str
  cmd_print_width : Option Int
  config_dir : Option Str
  hard : Bool
  max_concurrency : Option Int
  no_program_check : Bool
  no_file_check : Bool
  output_dir : Option Str
  patterns : Option (List Str)
  ping_sweep : Bool
  quick_only : Bool
  qs_method : Option Str
  status_interval : Option Int
  ts_method : Option Str
  udp : Bool
  udp_method : Option Str
  verbose_status : Bool
  web_word_list : Option Str
  targets : List Str

/-- Python exceptions reaching `cli.main`'s except chain: the `bscan`
error hierarchy, and the `AttributeError` that reading an attribute an
argparse namespace does not carry raises. -/
inductive PyExc where
  | bscan (e : BscanErr)
  | attributeError (attr : Str)
deriving DecidableEq

/-- `init_config` (`config.py` lines 90-256) applied to a parser-produced
namespace.  The checks before line 167 run as written; at line 167
(`db['no-service-scans'] = ns.no_service_scans`) the attribute read raises
`AttributeError`, because `get_parsed_args` defines no `--no-service-scans`
argument.  Everything after line 167 — the service and port-scan method
loading, the `--web-word-list` check and the `--ping-sweep` rejection at
lines 245-249 — is unreachable on a parser-produced namespace. -/
def init_config_parsed (ns : ParsedNamespace) (w : World) :
    Except PyExc Db :=
  let brutePass :=
    ns.brute_pass_list.getD (str "/usr/share/wordlists/fasttrack.txt")
  if ns.no_file_check = false ∧ w.fileExists brutePass = false then
    .error (.bscan (.configError
      (str "`--brute-pass-list` file does not exist")))
  else
  let bruteUser := ns.brute_user_list.getD
    (str "/usr/share/wordlists/metasploit/namelist.txt")
  if ns.no_file_check = false ∧ w.fileExists bruteUser = false then
    .error (.bscan (.configError
      (str "`--brute-user-list` file does not exist")))
  else
  let cmdPrintWidth := ns.cmd_print_width.getD 80
  if cmdPrintWidth < 5 then
    .error (.bscan (.configError
      (str "Invalid `--cmd-print-width` value specified")))
  else
  let outputDir := ns.output_dir.getD w.cwd
  if w.dirExists outputDir = false then
    .error (.bscan (.configError
      (str "`--output-dir` directory does not exist")))
  else
  if ns.patterns = some [] then
    .error (.bscan (.configError
      (str "`--patterns` requires at least one regex")))
  else
  if ns.no_program_check = false ∧
      w.requiredPrograms.any (fun p => w.whichOk p = false) then
    .error (.bscan (.configError (str "required programs could not be found")))
  else
  .error (.attributeError (str "no_service_scans"))

/-- The outcome of one `cli.main` run on a parser-produced namespace:
either a clean return (exit code, number of `Configuration error:` lines
printed, targets handed to `scan_target`), or an exception re-raised by the
`except Exception` clause at `cli.py` lines 301-304 after printing the
unexpected-exception notice. -/
inductive MainOutcome where
  | returns (exitCode : Int) (configErrorPrints : Nat)
      (scannedTargets : List Str)
  | reraises (exc : PyExc) (configErrorPrints : Nat)
deriving DecidableEq

/-- `cli.main` (`cli.py` lines 209-304) over the namespace its
`get_parsed_args` call at line 226 produces: parse `--max-concurrency`
(lines 228-236), run `init_config`, then admit and scan targets.
`BscanConfigError` is caught at lines 287-289 (one `Configuration error:`
line, return 1) and `BscanInternalError` at lines 292-294; any other
exception — such as the `AttributeError` from `config.py` line 167 —
reaches the `except Exception` clause at lines 301-304, which re-raises it,
so no `Configuration error:` line is printed.  The post-admission scan
phase is modelled as completing; its internal behaviour is modelled by the
dedicated definitions above. -/
def main_parsed (opts : ParsedNamespace) (w : World) : MainOutcome :=
  let mc := opts.max_concurrency.getD 20
  if mc < 1 then .returns 1 1 []
  else
    match init_config_parsed opts w with
    | .error (.bscan (.configError _)) => .returns 1 1 []
    | .error (.bscan (.internalError _)) => .returns 1 0 []
    | .error (.attributeError a) => .reraises (.attributeError a) 0
    | .ok _ =>
      if opts.targets = [] then .returns 1 0 []
      else
        let targets := opts.targets.filter
          (fun t => w.validHost t && w.skeletonOk t)
        if targets = [] then .returns 1 0 []
        else .returns 0 0 targets

/-! ### Concrete fixtures for witnesses -/

/-- A namespace with every flag at its default and one target. -/
def nsOk : Namespace :=
  ⟨none, none, none, none, false, none, false, false, false, none, none,
    false, false, none, none, none, false, none, false, none,
    [str "10.0.0.1"]⟩

/-- A world in which every filesystem probe succeeds and the packaged
configuration offers one method per port-scan stage. -/
def wOk : World :=
  ⟨fun _ => true, fun _ => true, fun _ => true, fun _ => true, fun _ => true,
    str "/out", [str "pat"], [],
    [⟨str "ssh", [str "ssh"], [(str "s", str "hydra")], []⟩],
    ⟨str "uni", [(str "uni", str "pt", str "sc")]⟩,
    ⟨str "nmap", [(str "nmap", str "pt", str "sc")]⟩,
    ⟨str "nmap", [(str "nmap", str "pt", str "sc")]⟩⟩

/-- What `get_parsed_args(['10.0.0.1'])` returns: every flag at its
argparse default, one positional target. -/
def psOk : ParsedNamespace :=
  ⟨none, none, none, none, false, none, false, false, none, none,
    false, false, none, none, none, false, none, false, none,
    [str "10.0.0.1"]⟩

/-! ### C9, C7, C4 theorems -/

/-- **C9** The `--ping-sweep` rejection (`config.py` lines 245-249) is dead
code on this tree, so requesting the flag does *not* produce the claimed
configuration error: (i) configuration initialization on a parser-produced
namespace can never succeed, because `config.py` line 167 reads
`ns.no_service_scans`, an attribute `get_parsed_args` never defines;
(ii) `main` therefore never scans a target; and (iii) on the concrete
`--ping-sweep` invocation in which every earlier check passes,
`init_config` fails with `AttributeError` — not `BscanConfigError` —
before reaching line 245, and `main` re-raises it as an unexpected fault
with zero `Configuration error:` lines printed. -/
theorem ping_sweep_check_unreachable :
    (∀ (opts : ParsedNamespace) (w : World) (db : Db),
        init_config_parsed opts w ≠ .ok db) ∧
      (∀ (opts : ParsedNamespace) (w : World) (ec : Int) (cp : Nat)
          (ts : List Str),
        main_parsed opts w = .returns ec cp ts → ts = []) ∧
      init_config_parsed { psOk with ping_sweep := true } wOk =
        .error (.attributeError (str "no_service_scans")) ∧
      main_parsed { psOk with ping_sweep := true } wOk =
        .reraises (.attributeError (str "no_service_scans")) 0 := by
  have hnever : ∀ (opts : ParsedNamespace) (w : World) (db : Db),
      init_config_parsed opts w ≠ .ok db := by
    intro opts w db h
    simp only [init_config_parsed] at h
    repeat' split at h
    all_goals exact Except.noConfusion h
  refine ⟨hnever, ?_, rfl, rfl⟩
  intro opts w ec cp ts h
  simp only [main_parsed] at h
  repeat' split at h
  all_goals first
    | exact absurd (by assumption) (hnever opts w _)
    | (cases h; rfl)
    | cases h

/-- **C7** The status poller fails with an internal error on every store
that `init_config` can produce (with the supervisor entry `cli.py` line 239
adds): `runtime.py` line 301 reads the key `cmd-print-length`, but
`config.py` line 127 writes `cmd-print-width`, so `get_db_value` raises
`BscanInternalError` before the first wake cycle; no status line is ever
printed. -/
theorem status_update_poller_raises_internal (ns : Namespace) (w : World)
    (db : Db) (mc : Int) (h : init_config ns w = .ok db) :
    status_update_poller_init ((str "sublemon", DbVal.vSupervisor mc) :: db) =
      .error (.internalError
        (str "Attempted to access unknown database key")) := by
  obtain ⟨-, bp, bu, od, ww, cpw, si, pats, qs, ts, um, rfl⟩ :=
    init_config_ok_shape h
  rfl

/-- **C7 (witness)** A concrete successful configuration on which the
status poller immediately raises the internal unknown-key error. -/
theorem status_update_poller_raises_internal_witness :
    ∃ db, init_config nsOk wOk = .ok db ∧
      status_update_poller_init
          ((str "sublemon", DbVal.vSupervisor 20) :: db) =
        .error (.internalError
          (str "Attempted to access unknown database key")) :=
  ⟨_, rfl, status_update_poller_raises_internal nsOk wOk _ 20 rfl⟩

/-- **C4** After any successful `init_config`, the active-targets set is
empty and stays untracked: no code path adds a target to it
(`config.py` line 94 is its only write), and because nothing calls
`init_subproc_set` (the `cli.main` of this tree never does, contrary to the
comment at `scans.py` lines 113-114), the very first
`add_running_subproc` performed by `proc_spawn` for any target fails with
`BscanInternalError` instead of tracking the subprocess. -/
theorem admitted_target_not_tracked (ns : Namespace) (w : World) (db : Db)
    (h : init_config ns w = .ok db) (t cmd : Str) :
    dbLookup db (str "active-targets") = some (.vStrSet ∅) ∧
      add_running_subproc db t cmd = .error (.internalError
        (str "Attempted to access uninitialized subprocess set for target "
          ++ t)) := by
  obtain ⟨-, bp, bu, od, ww, cpw, si, pats, qs, ts, um, rfl⟩ :=
    init_config_ok_shape h
  exact ⟨rfl, rfl⟩

/-- **C4 (witness)** On the concrete successful configuration, admitting
`10.0.0.1` leaves the active-targets set empty and the first spawned
subprocess's tracking call fails internally. -/
theorem admitted_target_not_tracked_witness :
    ∃ db, init_config nsOk wOk = .ok db ∧
      (dbLookup db (str "active-targets") = some (.vStrSet ∅) ∧
        add_running_subproc db (str "10.0.0.1") (str "hydra") =
          .error (.internalError
            (str "Attempted to access uninitialized subprocess set for " ++
              str "target " ++ str "10.0.0.1"))) := by
  refine ⟨_, rfl, (admitted_target_not_tracked nsOk wOk _ rfl
    (str "10.0.0.1") (str "hydra")).1, ?_⟩
  have h := (admitted_target_not_tracked nsOk wOk _ rfl
    (str "10.0.0.1") (str "hydra")).2
  simpa [str] using h

/-! ### The UDP step of the pipeline (`scans.py` lines 91-95, 178-180) -/

/-- Observable events of the pipeline's UDP step. -/
inductive ScanEvent where
  | warn (msg : Str)
  | udpScan (target : Str)
deriving DecidableEq

/-- The UDP step of `scan_target` (`scans.py` lines 91-95): when the `udp`
flag is set, the body prints `'UDP scan not yet implemented; skipping it'`;
the `run_udp_s` call is commented out, so no UDP scan is started. -/
def scan_target_udp_step (db : Db) (target : Str) :
    Except BscanErr (List ScanEvent) :=
  match get_db_value db (str "udp") with
  | .error e => .error e
  | .ok (.vBool true) =>
    .ok [.warn (str "UDP scan not yet implemented; skipping it")]
  | .ok _ => .ok []

/-- Python exceptions outside the `Bscan` hierarchy that the modelled code
raises. -/
inductive PyErr where
  | notImplementedError
deriving DecidableEq

/-- `run_udp_s` (`scans.py` lines 178-180): `raise NotImplementedError`. -/
def run_udp_s (target : Str) : Except PyErr (Finset ParsedService) :=
  .error .notImplementedError

/-- **C8 (counterexample)** With `--udp` enabled, the pipeline's UDP step
produces only the not-yet-implemented warning — no UDP scan event — and
`run_udp_s` itself raises `NotImplementedError`: the configured UDP
port-scan method is never run and no UDP service is logged. -/
theorem udp_step_runs_no_udp_scan :
    scan_target_udp_step [(str "udp", DbVal.vBool true)] (str "10.0.0.1") =
        .ok [.warn (str "UDP scan not yet implemented; skipping it")] ∧
      (∀ e ∈ [ScanEvent.warn
          (str "UDP scan not yet implemented; skipping it")],
        ∀ t, e ≠ ScanEvent.udpScan t) ∧
      run_udp_s (str "10.0.0.1") = .error .notImplementedError := by
  refine ⟨rfl, ?_, rfl⟩
  intro e he t
  rw [List.mem_singleton] at he
  subst he
  exact fun hc => ScanEvent.noConfusion hc

/-- **C8 (amended)** If the `--udp` flag is enabled, then after the
thorough-scan phase the per-target pipeline prints the warning
`'UDP scan not yet implemented; skipping it'` and skips UDP scanning
entirely; `run_udp_s` is unreachable and would raise
`NotImplementedError`. -/
theorem udp_enabled_prints_warning_and_skips (db : Db) (t : Str)
    (h : get_db_value db (str "udp") = .ok (.vBool true)) :
    scan_target_udp_step db t =
        .ok [.warn (str "UDP scan not yet implemented; skipping it")] ∧
      ∀ t', run_udp_s t' = .error .notImplementedError := by
  constructor
  · unfold scan_target_udp_step
    rw [h]
  · intro t'
    rfl

/-- **C8 (witness for the amended theorem)** The amended theorem applied to
a store carrying `udp = True`. -/
theorem udp_enabled_prints_warning_and_skips_witness :
    scan_target_udp_step [(str "udp", DbVal.vBool true)] (str "t") =
        .ok [.warn (str "UDP scan not yet implemented; skipping it")] ∧
      ∀ t', run_udp_s t' = .error .notImplementedError :=
  udp_enabled_prints_warning_and_skips [(str "udp", DbVal.vBool true)]
    (str "t") rfl

/-! ### The spawned-subprocess population (`scans.py` lines 53-116,
183-202)

`scan_target` gathers its service scans together with the thorough scan
(`scans.py` lines 65-73) and every one of them starts with `proc_spawn`.
`proc_spawn` calls `asyncio.create_subprocess_shell` unconditionally
(`scans.py` line 186): no code path consults the `Sublemon` supervisor that
`cli.py` line 239 stores under the `sublemon` key, nor any concurrency
counter, before spawning.  The admission discipline is therefore the
unguarded `spawn` rule below; a live process can exit at any time. -/

/-- Pending (gathered but not yet spawned) and live (spawned, exit not yet
observed) subprocesses of the orchestration. -/
structure OrchState where
  pending : List Str
  live : List Str
deriving DecidableEq

/-- Interleaving steps of the subprocess population.  `spawn` has no
capacity guard — the transcription of `scans.py` line 186. -/
inductive OrchStep : OrchState → OrchState → Prop
  | spawn (cmd : Str) (pending live : List Str) :
      OrchStep ⟨cmd :: pending, live⟩ ⟨pending, cmd :: live⟩
  | finish (cmd : Str) (pending pre post : List Str) :
      OrchStep ⟨pending, pre ++ cmd :: post⟩ ⟨pending, pre ++ post⟩

/-- Reachability under the orchestration's interleaving semantics. -/
def OrchReachable : OrchState → OrchState → Prop :=
  Relation.ReflTransGen OrchStep

/-- `NMAP_TCP_SCAN` (`scans.py` lines 44-46) as formatted by `run_nmap_ts`
(lines 163-165). -/
def NMAP_TCP_SCAN (target fout : Str) : Str :=
  str "nmap -vv -Pn -sS -sC -A -p- -T4 " ++ target ++ str " -oN \"" ++
    fout ++ str "\" 2>&1"

/-- The command list one `scan_target` gathers concurrently (`scans.py`
lines 65-73): every service-scan command built from the quick-scan join,
plus the thorough scan unless `--quick-only`. -/
def gathered_cmds (cfg : TemplateConfig) (existing : List Str)
    (qsJoined : List DetectedService) (target fout : Str)
    (doThorough : Bool) : List Str :=
  (qsJoined.map (build_scans cfg existing)).flatten ++
    (if doThorough then [NMAP_TCP_SCAN target fout] else [])

/-- **C1** The concurrency ceiling is not enforced: with
`--max-concurrency 1` accepted by `cli.main`'s parser, a single target whose
quick scan matched one service already gathers two commands, and because
`proc_spawn` admits unconditionally, the state in which both subprocesses
are live simultaneously is reachable — the live count exceeds the ceiling
instead of the second spawn suspending. -/
theorem concurrency_ceiling_violated :
    ∃ mc : Int,
      parse_max_concurrency { nsOk with max_concurrency := some 1 } =
        .ok mc ∧
      ∃ s : OrchState,
        OrchReachable
          ⟨gathered_cmds ⟨str "w", str "u", str "p", str "o"⟩ []
            [⟨str "ssh", str "t", [22], [(str "s", str "hydra")], []⟩]
            (str "t") (str "f") true, []⟩ s ∧
        mc < s.live.length := by
  refine ⟨1, rfl, ?_⟩
  rw [show gathered_cmds ⟨str "w", str "u", str "p", str "o"⟩ []
      [⟨str "ssh", str "t", [22], [(str "s", str "hydra")], []⟩]
      (str "t") (str "f") true =
      [str "hydra", NMAP_TCP_SCAN (str "t") (str "f")] from by decide]
  refine ⟨⟨[], [NMAP_TCP_SCAN (str "t") (str "f"), str "hydra"]⟩,
    Relation.ReflTransGen.head (OrchStep.spawn _ _ _)
      (Relation.ReflTransGen.head (OrchStep.spawn _ _ _)
        Relation.ReflTransGen.refl), ?_⟩
  show (1 : Int) < 2
  decide

end Bscan
